import Mathlib

/-
Verification of the COntoVAE model (onto_vae/cvae_model.py).

Shallow embedding conventions:
* a rank-2 torch tensor / numpy array is a `List (List ℝ)` of rows
  (rows = samples of a minibatch, columns = features / neurons);
* python exceptions are `Except String`;
* the external collaborators that are not part of this repository
  (the Encoder / OntoDecoder / simple_classifier modules from
  onto_vae.modules and the data loader) appear as opaque function
  fields of the model record; everything written in cvae_model.py is
  translated operation by operation.
-/

set_option maxHeartbeats 1600000

noncomputable section

namespace OntoVAE

/-! ## Basic tensor operations -/

/-- Elementwise binary operation on two rank-2 tensors of equal shape. -/
def map2M {α β γ : Type} (f : α → β → γ) (A : List (List α)) (B : List (List β)) :
    List (List γ) :=
  List.zipWith (fun r s => List.zipWith f r s) A B

/-- Sum of all entries of a rank-2 tensor (torch.sum over all dims). -/
def matSum (A : List (List ℝ)) : ℝ := (A.map (fun r => r.sum)).sum

/-- torch.hstack / torch.cat(dim=1): columnwise concatenation of two
rank-2 tensors with the same number of rows. -/
def hstack {α : Type} (A B : List (List α)) : List (List α) :=
  List.zipWith (fun r s => r ++ s) A B

/-- torch.cat(list, dim=1) over a list of rank-2 tensors; torch raises on
an empty list, here the empty case returns the empty tensor (never used
on an empty list by the theorems below). -/
def catCols {α : Type} : List (List (List α)) → List (List α)
  | [] => []
  | m :: ms => ms.foldl hstack m

/-! ## vae_loss (cvae_model.py lines 302-316) -/

/-- Line 311: kl_loss = -0.5 * torch.sum(1. + log_var - mu.pow(2) - log_var.exp()),
a single scalar summed over every sample and every latent dimension. -/
def kl_loss (mu log_var : List (List ℝ)) : ℝ :=
  -0.5 * matSum (map2M (fun m l => 1 + l - m ^ 2 - Real.exp l) mu log_var)

/-- Line 312: rec_loss = F.mse_loss(reconstruction, data, reduction="sum"),
the sum of squared errors over every sample and every feature. -/
def rec_loss (reconstruction data : List (List ℝ)) : ℝ :=
  matSum (map2M (fun r d => (r - d) ^ 2) reconstruction data)

/-- torch.mean applied to a 0-dimensional tensor (here: the scalar
rec_loss + kl_coeff * kl_loss of line 316) returns its single value. -/
def torchMean0 (x : ℝ) : ℝ := x

/-- Line 316: return torch.mean(rec_loss + kl_coeff*kl_loss). -/
def vae_loss (reconstruction mu log_var data : List (List ℝ)) (kl_coeff : ℝ) : ℝ :=
  torchMean0 (rec_loss reconstruction data + kl_coeff * kl_loss mu log_var)

/-- Per-sample reconstruction sum of squared errors (spec wording). -/
def perSampleSSE (r d : List ℝ) : ℝ := (List.zipWith (fun a b => (a - b) ^ 2) r d).sum

/-- Per-sample Kullback-Leibler sum -0.5 * Σ(1 + ℓ − μ² − exp ℓ) (spec wording). -/
def perSampleKL (m l : List ℝ) : ℝ :=
  -0.5 * (List.zipWith (fun mu lv => 1 + lv - mu ^ 2 - Real.exp lv) m l).sum

/-- Sum over the batch of (per-sample SSE + kl_coeff * per-sample KL). -/
def batch_sum_loss (reconstruction mu log_var data : List (List ℝ)) (kl_coeff : ℝ) : ℝ :=
  (List.zipWith
    (fun pr pml => perSampleSSE pr.1 pr.2 + kl_coeff * perSampleKL pml.1 pml.2)
    (reconstruction.zip data) (mu.zip log_var)).sum

/-- The loss the claim describes: the MEAN over the batch of
(per-sample SSE + kl_coeff * per-sample KL). -/
def spec_mean_vae_loss (reconstruction mu log_var data : List (List ℝ)) (kl_coeff : ℝ) : ℝ :=
  batch_sum_loss reconstruction mu log_var data kl_coeff / (reconstruction.length : ℝ)

/-! ## Decoder weight discipline of train_round (cvae_model.py lines 333-409)

A decoder layer weight (self.decoder.decoder[i][0].weight) and its mask
(self.decoder.masks[i]) are entrywise objects; they are embedded as
functions from index pairs to ℝ.  train_model (line 531) builds a fresh
torch.optim.AdamW over the model parameters, whose per-entry update rule
(decoupled weight decay, PyTorch semantics) is embedded below; the
exp_avg / exp_avg_sq moments of a fresh optimizer start at zero. -/

/-- An entrywise rank-2 tensor. -/
def MatF : Type := ℕ → ℕ → ℝ

/-- Hyperparameters of torch.optim.AdamW (lr, weight_decay, betas, eps). -/
structure AdamWParams where
  lr : ℝ
  weight_decay : ℝ
  beta1 : ℝ
  beta2 : ℝ
  eps : ℝ

/-- Optimizer state of one parameter tensor: the weight and the AdamW
first/second moment estimates. -/
structure ParamState where
  weight : MatF
  exp_avg : MatF
  exp_avg_sq : MatF

/-- One AdamW update (PyTorch AdamW documentation, decoupled weight decay):
θ ← θ − γλθ;  m ← β₁m + (1−β₁)g;  v ← β₂v + (1−β₂)g²;
θ ← θ − γ·(m/(1−β₁ᵗ)) / (√(v/(1−β₂ᵗ)) + ε).  t is the step count. -/
def adamw_step (hp : AdamWParams) (t : ℕ) (grad : MatF) (p : ParamState) : ParamState where
  weight := fun i j =>
    let w1 := p.weight i j - hp.lr * hp.weight_decay * p.weight i j
    let m1 := hp.beta1 * p.exp_avg i j + (1 - hp.beta1) * grad i j
    let v1 := hp.beta2 * p.exp_avg_sq i j + (1 - hp.beta2) * grad i j ^ 2
    let mhat := m1 / (1 - hp.beta1 ^ t)
    let vhat := v1 / (1 - hp.beta2 ^ t)
    w1 - hp.lr * mhat / (Real.sqrt vhat + hp.eps)
  exp_avg := fun i j => hp.beta1 * p.exp_avg i j + (1 - hp.beta1) * grad i j
  exp_avg_sq := fun i j => hp.beta2 * p.exp_avg_sq i j + (1 - hp.beta2) * grad i j ^ 2

/-- Line 397: weight.grad = torch.mul(weight.grad, mask). -/
def mask_grad (mask grad : MatF) : MatF := fun i j => grad i j * mask i j

/-- Line 405: weight.data = weight.data.clamp(0). -/
def clamp0 (w : MatF) : MatF := fun i j => max (w i j) 0

/-- One minibatch update of one decoder layer weight in train_round
(lines 393-405): if the first decoder layer weight requires grad, the
gradient is multiplied entrywise by the layer mask (line 397), then the
optimizer step runs (line 400), then the weight is clamped to be
non-negative (line 405); if requires_grad is false, the mask and clamp
are skipped. -/
def train_round_step (hp : AdamWParams) (t : ℕ) (requires_grad : Bool)
    (mask : MatF) (grad : MatF) (p : ParamState) : ParamState :=
  let g := if requires_grad then mask_grad mask grad else grad
  let p1 := adamw_step hp t g p
  if requires_grad then { p1 with weight := clamp0 p1.weight } else p1

/-- A training run over a list of minibatch gradients, threading the
AdamW step counter (first step has t = 1). -/
def train_round_run (hp : AdamWParams) (requires_grad : Bool) (mask : MatF) :
    List MatF → ℕ → ParamState → ParamState
  | [], _, p => p
  | g :: gs, t, p =>
      train_round_run hp requires_grad mask gs (t + 1)
        (train_round_step hp t requires_grad mask g p)

/-- Optimizer state at the start of training: the constructed weight with
the fresh AdamW moments, which are zero. -/
def initial_param_state (w0 : MatF) : ParamState where
  weight := w0
  exp_avg := fun _ _ => 0
  exp_avg_sq := fun _ _ => 0

/-! ## Epoch-end checkpoint decision of train_model (lines 537-566) -/

/-- The training-state flags of the model object that lines 546-566 read
and write (val_loss_min is initialised to float(inf) at construction;
WithTop ℚ models the reals extended with that infinity). -/
structure TrainerState where
  VAE_trained : Bool
  clf_trained : Bool
  val_loss_min : WithTop ℚ

/-- End of one epoch of train_model (lines 546-566): if val_epoch_loss <
self.val_loss_min, a checkpoint is written (the Bool of the result) and
val_loss_min is set to val_epoch_loss; afterwards — unconditionally —
self.VAE_trained is set to True and, when labels were supplied,
self.clf_trained is set to True. -/
def train_model_epoch_end (labelsPresent : Bool) (val_epoch_loss : ℚ)
    (s : TrainerState) : Bool × TrainerState :=
  let saved := decide ((val_epoch_loss : WithTop ℚ) < s.val_loss_min)
  let s1 := if saved then { s with val_loss_min := (val_epoch_loss : WithTop ℚ) } else s
  let s2 := { s1 with VAE_trained := true,
                      clf_trained := if labelsPresent then true else s1.clf_trained }
  (saved, s2)

/-! ## Precondition check of train_model (lines 499-501) -/

/-- Lines 499-501 of train_model: after the train/validation split and
before building dataloaders, the optimizer and the epoch loop, the code
raises a ValueError asking to pretrain the VAE part of the model when
labels were supplied but the VAE has not been trained.  The epoch loop
itself is abstracted as runTraining: on the error path its result type
never materialises, i.e. no training step is performed. -/
def train_model_entry {α : Type} (labelsPresent VAE_trained : Bool)
    (runTraining : Unit → α) : Except String α :=
  if labelsPresent && !VAE_trained then
    Except.error ("Please pretrain the VAE part of the model.")
  else
    Except.ok (runTraining ())

/-! ## Forward-hook bookkeeping of forward (lines 221-236, 580-584)

The set of forward hooks registered on the decoder layers is a list of
layer indices.  _attach_hooks (lines 580-584) registers one hook per
decoder layer except the last.  forward (lines 221-236) attaches the
hooks before the decoder call and removes exactly the freshly attached
ones after the classifier call; the decoder and classifier calls are
embedded as Except values so that the exceptional exit paths of the
Python code are visible. -/

/-- Lines 580-584: register one forward hook per decoder layer except the
last, appending to the registered-hook set. -/
def attach_hooks (numLayers : ℕ) (hooks : List ℕ) : List ℕ :=
  hooks ++ List.range (numLayers - 1)

/-- Control flow of forward (lines 221-236) restricted to hook
bookkeeping: with labels present the hooks are attached (line 224), the
decoder runs (line 227), the classifier runs (line 233) and only then the
hooks are removed (lines 234-235); there is no try/finally, so when the
decoder or the classifier raises, the function propagates the exception
with the hooks still attached.  Returns the outcome and the
registered-hook set after the call. -/
def forward_hook_flow (numLayers : ℕ) (labelsPresent : Bool) (hooks0 : List ℕ)
    (decoderCall : Except String (List (List ℝ)))
    (classifierCall : Except String (List (List ℝ))) :
    Except String (List (List ℝ)) × List ℕ :=
  if labelsPresent then
    let hs := attach_hooks numLayers hooks0
    match decoderCall with
    | Except.error e => (Except.error e, hs)
    | Except.ok _ =>
        match classifierCall with
        | Except.error e => (Except.error e, hs)
        | Except.ok out => (Except.ok out, hooks0)
  else
    match decoderCall with
    | Except.error e => (Except.error e, hooks0)
    | Except.ok r => (Except.ok r, hooks0)

/-! ## The data path: model record, forward, _pass_data, perturbation

The Encoder, OntoDecoder and simple_classifier modules live in
onto_vae/modules.py, an external collaborator of cvae_model.py; they are
embedded as opaque function fields.  The decoder returns, besides the
reconstruction, the list of per-layer affine outputs of every decoder
layer except the last — exactly the values the forward hooks of
_attach_hooks capture during the decoder call.  The fresh standard
normal draw of torch.randn_like is passed in as the eps argument. -/

/-- torch.split(act, neuronnum, dim=1): cut one row into consecutive
chunks of width n (a ragged final chunk when n does not divide the
length, as in torch); np.split with cols/n sections agrees with this on
the divisible shapes the model produces. -/
def splitChunks {α : Type} (n : ℕ) (l : List α) : List (List α) :=
  (List.range ((l.length + n - 1) / n)).map (fun t => (l.drop (t * n)).take n)

/-- Lines 232/287/606/623: split a row into width-n chunks and take each
mean of each chunk; torch.stack(...).mean(dim=2).T and the np.split(...)
.mean(axis=2).T idiom both reduce to this rowwise operation. -/
def chunkMeans (n : ℕ) (l : List ℝ) : List ℝ :=
  (splitChunks n l).map (fun c => c.sum / (c.length : ℝ))

/-- Lines 230-232 of forward: act = torch.cat(activations, dim=1);
act = torch.hstack((z, act)); then split into width-neuronnum chunks,
stack, mean over the chunk axis and transpose — i.e. rowwise chunk
means of the columnwise concatenation. -/
def activity_aggregate (n : ℕ) (z : List (List ℝ)) (caps : List (List (List ℝ))) :
    List (List ℝ) :=
  (hstack z (catCols caps)).map (chunkMeans n)

/-- Row k of the identity matrix torch.eye(n) (the one-hot encoding
self.one_hot[k]). -/
def one_hot_row (n k : ℕ) : List ℝ :=
  (List.range n).map (fun j => if j = k then 1 else 0)

/-- The COntoVAE model object: the fields set by the __init__ of cvae_model.py
that the embedded methods read.  encoder/decoder/classifier are the
external modules; labels is None or the per-sample label list. -/
structure VModel where
  genes : List String
  ontology : String
  neuronnum : ℕ
  n_batch : ℕ
  labels : Option (List ℕ)
  encoder : List (List ℝ) → List (List ℝ) × List (List ℝ)
  decoder : List (List ℝ) → Option (List ℕ) → List (List ℝ) × List (List (List ℝ))
  classifier : Option (List (List ℝ) → List (List ℝ))

/-- Line 104: self.n_classes = len(set(self.y)), where y is the labels
array when given and np.zeros(n_samples) otherwise (lines 100-103). -/
def n_classes_of (labels : Option (List ℕ)) (nSamples : ℕ) : ℕ :=
  match labels with
  | some ys => ys.dedup.length
  | none => (List.replicate nSamples (0 : ℕ)).dedup.length

/-- Model construction (lines 100-148): the classifier submodule is
created only when self.n_classes > 1 (line 146). -/
def mkVModel (genes : List String) (ontology : String) (neuronnum n_batch : ℕ)
    (labels : Option (List ℕ)) (nSamples : ℕ)
    (enc : List (List ℝ) → List (List ℝ) × List (List ℝ))
    (dec : List (List ℝ) → Option (List ℕ) → List (List ℝ) × List (List (List ℝ)))
    (clfNet : List (List ℝ) → List (List ℝ)) : VModel where
  genes := genes
  ontology := ontology
  neuronnum := neuronnum
  n_batch := n_batch
  labels := labels
  encoder := enc
  decoder := dec
  classifier := if 1 < n_classes_of labels nSamples then some clfNet else none

/-- Batch-covariate attachment, identical in get_embedding (lines
179-188) and forward (lines 203-212): with batch given, hstack the
one-hot rows self.one_hot[batch]; with batch None and n_batch > 0,
hstack an all-zero block torch.zeros((B)).repeat(n_batch,1).T of width
n_batch; otherwise leave x unchanged. -/
def attach_batch (M : VModel) (x : List (List ℝ)) (batch : Option (List ℕ)) :
    List (List ℝ) :=
  match batch with
  | some b => hstack x (b.map (one_hot_row M.n_batch))
  | none =>
      if 0 < M.n_batch then hstack x (x.map (fun _ => List.replicate M.n_batch (0 : ℝ)))
      else x

/-- Lines 154-167: sigma = exp(0.5*log_var); eps = randn_like(sigma)
(passed in); return mu + eps * sigma. -/
def reparameterize (mu log_var eps : List (List ℝ)) : List (List ℝ) :=
  map2M (fun m es => m + es) mu
    (map2M (fun e s => e * s) eps
      (log_var.map (fun row => row.map (fun l => Real.exp (0.5 * l)))))

/-- forward (lines 200-238): attach batch info, encode, sample, decode;
with labels present aggregate the hook captures together with z into the
pathway activity matrix and run the classifier — raising AttributeError
when the classifier submodule was never created — and return the
5-tuple; without labels return the 3-tuple.  The hook captures (the
non-final layer outputs of the decoder) are returned alongside so that
the hooks of _pass_data can be read off; the Option component is the
labels-branch extra output (act, classifier logits). -/
def forward (M : VModel) (eps x : List (List ℝ)) (batch : Option (List ℕ)) :
    Except String (List (List ℝ) × List (List ℝ) × List (List ℝ) ×
      List (List (List ℝ)) × Option (List (List ℝ) × List (List ℝ))) :=
  let x1 := attach_batch M x batch
  let p := M.encoder x1
  let z := reparameterize p.1 p.2 eps
  let d := M.decoder z batch
  match M.labels with
  | some _ =>
      let act := activity_aggregate M.neuronnum z d.2
      match M.classifier with
      | some clf => Except.ok (d.1, p.1, p.2, d.2, some (act, clf act))
      | none => Except.error ("AttributeError: COntoVAE object has no attribute classifier")
  | none => Except.ok (d.1, p.1, p.2, d.2, none)

/-- get_embedding (lines 169-198): attach batch info, encode, sample. -/
def get_embedding (M : VModel) (eps x : List (List ℝ)) (batch : Option (List ℕ)) :
    List (List ℝ) :=
  let x1 := attach_batch M x batch
  let p := M.encoder x1
  reparameterize p.1 p.2 eps

/-- _pass_data (lines 587-633): embed the data (one fresh draw eps1),
aggregate the latent z per term, run forward (a second fresh draw eps2)
with hooks attached, aggregate the captured activations per term, and
return the hstack of both for the act selector or the raw reconstruction
for the rec selector.  For any other selector the Python function returns
None; that absent result is encoded as an error value. -/
def pass_data (M : VModel) (eps1 eps2 : List (List ℝ)) (data : List (List ℝ))
    (batch : Option (List ℕ)) (output : String) : Except String (List (List ℝ)) :=
  let z0 := get_embedding M eps1 data batch
  let z := z0.map (chunkMeans M.neuronnum)
  match forward M eps2 data batch with
  | Except.error e => Except.error e
  | Except.ok res =>
      let act := (catCols res.2.2.2.1).map (chunkMeans M.neuronnum)
      if output = "act" then Except.ok (hstack z act)
      else if output = "rec" then Except.ok res.1
      else Except.error ("None")

/-- The ontology descriptor object (Ontobj) as used by the query
methods: its free-text description, the stored dataset (already selected
by trimming-threshold and dataset name), the term-annotation ID column
in pathway-activity order, and the gene list. -/
structure OntoObj where
  description : String
  data : List (List ℝ)
  annot : List String
  genes : List String

/-- numpy fancy indexing res[:, idx]: select the given columns of every
row (callers keep idx within range; out of range is a numpy error). -/
def colSubset (A : List (List ℝ)) (idx : List ℕ) : List (List ℝ) :=
  A.map (fun row => idx.map (fun j => row.getD j 0))

/-- Lines 762-763: annot[annot.ID.isin(terms)].index — the positions of
the annotation rows whose ID is in the requested term list. -/
def termIndices (annot : List String) (terms : List String) : List ℕ :=
  (List.range annot.length).filter
    (fun i => match annot.get? i with
              | some s => decide (s ∈ terms)
              | none => false)

/-- data[:, j] = v: overwrite column j of every row with the value v. -/
def set_col (data : List (List ℝ)) (j : ℕ) (v : ℝ) : List (List ℝ) :=
  data.map (fun row => row.set j v)

/-- Lines 745-749 of perturbation: indices = [self.genes.index(g) for g
in genes]; for i in range(len(genes)): data[:, indices[i]] = values[i]. -/
def substitute_genes (data : List (List ℝ)) (idx : List ℕ) (vals : List ℝ) :
    List (List ℝ) :=
  (idx.zip vals).foldl (fun d p => set_col d p.1 p.2) data

/-- Modelled from the spec: the manual construction, named by the claim, of an input
array with one gene column set to a value, against which the
perturbation path is compared. -/
def manual_input (data : List (List ℝ)) (j : ℕ) (v : ℝ) : List (List ℝ) :=
  data.map (fun row => row.set j v)

/-- perturbation (lines 708-773): the output-selector guards (note line
736 compares output against the string genes prefixed by one space, so
an output selector of genes never clears terms), the ontology identity check, the copy-and-overwrite
of the stored dataset, the forward pass via _pass_data, and the optional
terms/rec_genes column subsets.  Returns the result together with the
final state of the descriptor (the dataset was copied, so it is returned
unchanged).  When output is neither terms nor genes the Python
variable res is unbound (a NameError), encoded as an error value. -/
def perturbation (M : VModel) (eps1 eps2 : List (List ℝ)) (ontobj : OntoObj)
    (genes : List String) (values : List ℝ) (batch : Option (List ℕ))
    (output : String) (terms rec_genes : Option (List String)) :
    Except String (List (List ℝ)) × OntoObj :=
  let rec_genes := if output = "terms" then none else rec_genes
  let terms := if output = " genes" then none else terms
  if ontobj.description ≠ M.ontology then
    (Except.error ("Wrong ontology provided, should be " ++ M.ontology), ontobj)
  else
    let data := ontobj.data
    let idx := genes.map (fun g => M.genes.indexOf g)
    let data := substitute_genes data idx values
    let res := if output = "terms" then pass_data M eps1 eps2 data batch ("act")
               else if output = "genes" then pass_data M eps1 eps2 data batch ("rec")
               else Except.error ("NameError: name res is not defined")
    match res with
    | Except.error e => (Except.error e, ontobj)
    | Except.ok r =>
        let r1 := match terms with
          | some ts => colSubset r (termIndices ontobj.annot ts)
          | none => r
        let r2 := match rec_genes with
          | some gs => colSubset r1 (gs.map (fun g => ontobj.genes.indexOf g))
          | none => r1
        (Except.ok r2, ontobj)

/-- True exactly on the non-raising outcome of a call. -/
def isSuccess {ε α : Type} : Except ε α → Bool
  | Except.ok _ => true
  | Except.error _ => false

/-! ## Concrete instances used by the witnesses -/

/-- A concrete stand-in encoder: mu = input, log_var = 0. -/
def encEx : List (List ℝ) → List (List ℝ) × List (List ℝ) :=
  fun x => (x, x.map (fun row => row.map (fun _ => 0)))

/-- A concrete stand-in decoder with no captured layers. -/
def decEx : List (List ℝ) → Option (List ℕ) → List (List ℝ) × List (List (List ℝ)) :=
  fun z _ => (z, [])

/-- A concrete model without labels or batch correction. -/
def Mplain : VModel where
  genes := ["g0", "g1"]
  ontology := "ont"
  neuronnum := 1
  n_batch := 0
  labels := none
  encoder := encEx
  decoder := decEx
  classifier := none

/-- A concrete ontology descriptor matching Mplain. -/
def ontoEx : OntoObj where
  description := "ont"
  data := [[1, 2]]
  annot := ["t0", "t1"]
  genes := ["g0", "g1"]

/-- A concrete model with batch correction (n_batch = 1). -/
def Mbatch : VModel :=
  { Mplain with genes := ["g0"], n_batch := 1 }

/-- A concrete model with labels and a (identity) classifier, whose
decoder exposes one captured layer of two terms at neuronnum = 1. -/
def Mclf : VModel where
  genes := ["g0"]
  ontology := "ont"
  neuronnum := 1
  n_batch := 0
  labels := some [0, 1]
  encoder := encEx
  decoder := fun z _ => (z, [[[5, 6], [7, 8]]])
  classifier := some (fun a => a)

/-! ## Theorems -/

/-! ### Helper lemmas for sums over zipped rows -/

theorem matSum_map2M (f : ℝ → ℝ → ℝ) (A : List (List ℝ)) :
    ∀ B : List (List ℝ), matSum (map2M f A B)
      = (List.zipWith (fun a b => (List.zipWith f a b).sum) A B).sum := by
  induction A with
  | nil => intro B; simp [matSum, map2M]
  | cons a A ih =>
    intro B
    cases B with
    | nil => simp [matSum, map2M]
    | cons b B =>
      have := ih B
      simp [matSum, map2M] at this ⊢
      simp [this]

theorem zipWith_sum_smul (r : ℝ) (g : List ℝ → List ℝ → ℝ) (C : List (List ℝ)) :
    ∀ D : List (List ℝ),
      (List.zipWith (fun m l => r * g m l) C D).sum = r * (List.zipWith g C D).sum := by
  induction C with
  | nil => intro D; simp
  | cons c C ih =>
    intro D
    cases D with
    | nil => simp
    | cons d D => simp [ih D, mul_add]

theorem zipWith_sum_add_mul (f g : List ℝ → List ℝ → ℝ) (c : ℝ) :
    ∀ (A B C D : List (List ℝ)), A.length = B.length → A.length = C.length →
      C.length = D.length →
      (List.zipWith (fun pr pml => f pr.1 pr.2 + c * g pml.1 pml.2) (A.zip B) (C.zip D)).sum
        = (List.zipWith f A B).sum + c * (List.zipWith g C D).sum := by
  intro A
  induction A with
  | nil =>
    intro B C D h1 h2 h3
    cases B with
    | cons b B => simp at h1
    | nil =>
      cases C with
      | cons c C => simp at h2
      | nil =>
        cases D with
        | cons d D => simp at h3
        | nil => simp
  | cons a A ih =>
    intro B C D h1 h2 h3
    cases B with
    | nil => simp at h1
    | cons b B =>
      cases C with
      | nil => simp at h2
      | cons cc C =>
        cases D with
        | nil => simp at h3
        | cons d D =>
          have h1' : A.length = B.length := by simpa using h1
          have h2' : A.length = C.length := by simpa using h2
          have h3' : C.length = D.length := by simpa using h3
          simp only [List.zip_cons_cons, List.zipWith_cons_cons, List.sum_cons]
          rw [ih B C D h1' h2' h3']
          ring

/-! ## C2 theorems -/

/-- C2 counterexample: with batch size 2, reconstruction [[1],[1]],
data/mu/log_var all zero and kl_coeff = 1, the vae_loss of the code is 2 (the
batch SUM) while the claimed mean-over-batch is 1, so the claim that
vae_loss equals the mean over the batch of the per-sample losses is
false. -/
theorem vae_loss_counterexample :
    vae_loss [[1], [1]] [[0], [0]] [[0], [0]] [[0], [0]] 1
      ≠ spec_mean_vae_loss [[1], [1]] [[0], [0]] [[0], [0]] [[0], [0]] 1 := by
  norm_num [vae_loss, spec_mean_vae_loss, batch_sum_loss, perSampleSSE, perSampleKL,
    torchMean0, rec_loss, kl_loss, matSum, map2M, Real.exp_zero]

/-- C2 (amended): for every minibatch whose four tensors have one row per
sample, vae_loss equals the SUM over the batch of (per-sample SSE +
kl_coeff * per-sample KL); the final torch.mean of line 316 is applied to
a 0-dimensional tensor and is the identity, so no division by the batch
size takes place. -/
theorem vae_loss_batch_sum (reconstruction mu log_var data : List (List ℝ)) (kl_coeff : ℝ)
    (h1 : reconstruction.length = data.length)
    (h2 : reconstruction.length = mu.length)
    (h3 : mu.length = log_var.length) :
    vae_loss reconstruction mu log_var data kl_coeff
      = batch_sum_loss reconstruction mu log_var data kl_coeff := by
  unfold vae_loss batch_sum_loss torchMean0 rec_loss kl_loss perSampleSSE perSampleKL
  rw [matSum_map2M, matSum_map2M]
  rw [zipWith_sum_add_mul (fun a b => (List.zipWith (fun x y => (x - y) ^ 2) a b).sum)
      (fun m l => -0.5 * (List.zipWith (fun mu lv => 1 + lv - mu ^ 2 - Real.exp lv) m l).sum)
      kl_coeff reconstruction data mu log_var h1 h2 h3]
  rw [zipWith_sum_smul]

/-- Witness for the amended C2 theorem at a concrete singleton batch. -/
theorem vae_loss_batch_sum_witness :
    ([[(1 : ℝ)]] : List (List ℝ)).length = ([[(0 : ℝ)]] : List (List ℝ)).length ∧
    vae_loss [[1]] [[0]] [[0]] [[0]] 1 = batch_sum_loss [[1]] [[0]] [[0]] [[0]] 1 :=
  ⟨rfl, vae_loss_batch_sum [[1]] [[0]] [[0]] [[0]] 1 rfl rfl rfl⟩

/-! ### C1: decoder mask sparsity and non-negativity invariants -/

theorem train_round_step_masked (hp : AdamWParams) (t : ℕ) (mask g : MatF)
    (p : ParamState) (i j : ℕ) (hm : mask i j = 0) (hw : p.weight i j = 0)
    (hma : p.exp_avg i j = 0) (hv : p.exp_avg_sq i j = 0) :
    (train_round_step hp t true mask g p).weight i j = 0 ∧
    (train_round_step hp t true mask g p).exp_avg i j = 0 ∧
    (train_round_step hp t true mask g p).exp_avg_sq i j = 0 := by
  simp [train_round_step, adamw_step, mask_grad, clamp0, hm, hw, hma, hv]

theorem train_round_run_masked (hp : AdamWParams) (mask : MatF) (i j : ℕ)
    (hm : mask i j = 0) :
    ∀ (gs : List MatF) (t : ℕ) (p : ParamState), p.weight i j = 0 →
      p.exp_avg i j = 0 → p.exp_avg_sq i j = 0 →
      (train_round_run hp true mask gs t p).weight i j = 0 := by
  intro gs
  induction gs with
  | nil => intro t p hw _ _; exact hw
  | cons g gs ih =>
    intro t p hw hma hv
    have hstep := train_round_step_masked hp t mask g p i j hm hw hma hv
    exact ih (t + 1) (train_round_step hp t true mask g p) hstep.1 hstep.2.1 hstep.2.2

theorem train_round_run_nonneg (hp : AdamWParams) (mask : MatF) (i j : ℕ) :
    ∀ (gs : List MatF) (g : MatF) (t : ℕ) (p : ParamState),
      0 ≤ (train_round_run hp true mask (g :: gs) t p).weight i j := by
  intro gs
  induction gs with
  | nil =>
    intro g t p
    simp [train_round_run, train_round_step, clamp0]
  | cons g' gs ih =>
    intro g t p
    exact ih g' (t + 1) (train_round_step hp t true mask g p)

/-- C1: assuming every decoder layer weight satisfies the mask sparsity
pattern at construction, then — whenever the first decoder layer weight
requires grad, so the masked-gradient correction of line 397 and the
clamp of line 405 both run — after every optimizer step of a training
run (fresh AdamW moments, any non-empty sequence of minibatch
gradients), every weight entry at a mask-zero position is exactly 0 and
every weight entry is ≥ 0.  Stated for one layer with a universally
quantified mask/weight pair, which covers every decoder layer. -/
theorem decoder_weight_invariant (hp : AdamWParams) (mask w0 : MatF) (gs : List MatF)
    (hinit : ∀ i j, mask i j = 0 → w0 i j = 0) (hne : gs ≠ []) :
    (∀ i j, mask i j = 0 →
      (train_round_run hp true mask gs 1 (initial_param_state w0)).weight i j = 0)
    ∧ ∀ i j, 0 ≤ (train_round_run hp true mask gs 1 (initial_param_state w0)).weight i j := by
  constructor
  · intro i j hm
    exact train_round_run_masked hp mask i j hm gs 1 (initial_param_state w0)
      (hinit i j hm) rfl rfl
  · intro i j
    cases gs with
    | nil => exact absurd rfl hne
    | cons g gs => exact train_round_run_nonneg hp mask i j gs g 1 (initial_param_state w0)

/-- Witness for C1 at a concrete layer: the everywhere-zero mask, the
everywhere-zero initial weight and a single all-ones gradient. -/
theorem decoder_weight_invariant_witness :
    (∀ i j : ℕ, (fun _ _ => (0 : ℝ)) i j = 0 → (fun _ _ => (0 : ℝ)) i j = 0) ∧
    ((∀ i j, (fun _ _ => (0 : ℝ)) i j = 0 →
        (train_round_run ⟨1, 1, 1, 1, 1⟩ true (fun _ _ => 0) [fun _ _ => 1] 1
          (initial_param_state (fun _ _ => 0))).weight i j = 0)
      ∧ ∀ i j, 0 ≤ (train_round_run ⟨1, 1, 1, 1, 1⟩ true (fun _ _ => 0) [fun _ _ => 1] 1
          (initial_param_state (fun _ _ => 0))).weight i j) :=
  ⟨fun _ _ h => h,
   decoder_weight_invariant ⟨1, 1, 1, 1, 1⟩ (fun _ _ => 0) (fun _ _ => 0)
     [fun _ _ => 1] (fun _ _ _ => rfl) (by simp)⟩

/-! ### C4: checkpointing decision at the end of an epoch -/

/-- C4 (amended): at the end of every epoch a checkpoint is written iff
the validation loss strictly improves on val_loss_min, and exactly then
val_loss_min is updated; the trained-state flags however are assigned
unconditionally: VAE_trained becomes true after every epoch and
clf_trained becomes true after every epoch with labels present,
improvement or not. -/
theorem train_model_epoch_end_behavior (labelsPresent : Bool) (v : ℚ) (s : TrainerState) :
    ((train_model_epoch_end labelsPresent v s).1 = true ↔ (v : WithTop ℚ) < s.val_loss_min)
    ∧ (train_model_epoch_end labelsPresent v s).2.val_loss_min
        = (if (v : WithTop ℚ) < s.val_loss_min then (v : WithTop ℚ) else s.val_loss_min)
    ∧ (train_model_epoch_end labelsPresent v s).2.VAE_trained = true
    ∧ (train_model_epoch_end labelsPresent v s).2.clf_trained
        = (labelsPresent || s.clf_trained) := by
  unfold train_model_epoch_end
  by_cases h : (v : WithTop ℚ) < s.val_loss_min <;>
    cases labelsPresent <;> simp [h]

/-- C4 counterexample: at the state (VAE_trained = false, clf_trained =
false, val_loss_min = 1) an epoch with validation loss 2 writes no
checkpoint, yet VAE_trained is still flipped to true: the trained-state
flag assignment of lines 563-566 sits outside the improvement branch, so
the flags are not updated exactly when the loss improves. -/
theorem train_model_epoch_end_counterexample :
    (train_model_epoch_end false 2 ⟨false, false, ((1 : ℚ) : WithTop ℚ)⟩).1 = false
    ∧ (train_model_epoch_end false 2 ⟨false, false, ((1 : ℚ) : WithTop ℚ)⟩).2.VAE_trained = true
    ∧ (⟨false, false, ((1 : ℚ) : WithTop ℚ)⟩ : TrainerState).VAE_trained = false
    ∧ ¬ (((2 : ℚ) : WithTop ℚ) < ((1 : ℚ) : WithTop ℚ)) := by
  refine ⟨?_, ?_, rfl, ?_⟩
  · simp [train_model_epoch_end]
  · simp [train_model_epoch_end]
  · simp

/-! ### C5: hook attach/detach scoping in forward -/

/-- C5: with labels present, forward attaches one hook per non-final
decoder layer; when the decoder call raises, the exception propagates
with both hooks still registered (no try/finally exists), while on the
success path the freshly attached hooks are removed.  The first
conjunct exhibits the failing input of the claim: instrumentation state
survives an exceptional exit. -/
theorem forward_hooks_leak :
    forward_hook_flow 3 true [] (Except.error ("RuntimeError")) (Except.ok [[1]])
      = (Except.error ("RuntimeError"), [0, 1])
    ∧ forward_hook_flow 3 true [] (Except.ok [[1]]) (Except.ok [[2]])
      = (Except.ok [[2]], ([] : List ℕ)) := by
  constructor <;> rfl

/-! ### C6: classifier training requires a pretrained VAE -/

/-- C6: for a model with labels supplied and VAE_trained = false,
train_model raises a ValueError asking to pretrain the VAE part of the
model before any training step is performed — the error value is
produced without ever invoking the training loop. -/
theorem train_model_requires_pretrained_vae {α : Type} (runTraining : Unit → α) :
    train_model_entry true false runTraining
      = Except.error ("Please pretrain the VAE part of the model.") := rfl

/-! ### C7: absent batch covariate with batch correction enabled -/

/-- C7 (amended): for a model with n_batch > 0, a forward call with
batch = None does not abort: the code silently substitutes an all-zero
one-hot block of width n_batch (lines 208-212, identically lines
184-188 of get_embedding) and the call proceeds normally. -/
theorem attach_batch_zero_pad (M : VModel) (x : List (List ℝ)) (h : 0 < M.n_batch) :
    attach_batch M x none = hstack x (x.map (fun _ => List.replicate M.n_batch (0 : ℝ)))
    ∧ ∀ eps, M.labels = none → isSuccess (forward M eps x none) = true := by
  constructor
  · simp [attach_batch, h]
  · intro eps hlab
    simp [forward, hlab, isSuccess]

/-- Witness for the amended C7 theorem on the concrete batch-corrected
model Mbatch. -/
theorem attach_batch_zero_pad_witness :
    0 < Mbatch.n_batch
    ∧ (attach_batch Mbatch [[1]] none
        = hstack [[1]] ([[(1 : ℝ)]].map (fun _ => List.replicate Mbatch.n_batch (0 : ℝ)))
      ∧ ∀ eps, Mbatch.labels = none → isSuccess (forward Mbatch eps [[1]] none) = true) :=
  ⟨by norm_num [Mbatch, Mplain], attach_batch_zero_pad Mbatch [[1]] (by norm_num [Mbatch, Mplain])⟩

/-- C7 counterexample: the claim says a forward call with the batch
covariate absent aborts with a fatal error; on the concrete model Mbatch
(n_batch = 1) the call succeeds, with the input silently zero-padded to
[[1, 0]]. -/
theorem forward_absent_batch_counterexample :
    isSuccess (forward Mbatch [[0, 0]] [[1]] none) = true
    ∧ attach_batch Mbatch [[1]] none = [[(1 : ℝ), 0]] := by
  constructor
  · simp [forward, Mbatch, Mplain, isSuccess]
  · simp [attach_batch, Mbatch, Mplain, hstack]

/-! ### C9: a single-class label vector disables the classifier yet
forward still calls it -/

/-- C9: for a model constructed with labels having exactly one distinct
class, n_classes = 1 so the classifier submodule is not created (line
146 requires n_classes > 1), while forward still takes the labels
branch and accesses self.classifier (line 233), so every forward call
fails with an AttributeError instead of running the classifier-free
path. -/
theorem single_class_forward_fails (genes : List String) (ontology : String)
    (neuronnum n_batch nSamples : ℕ) (ys : List ℕ)
    (enc : List (List ℝ) → List (List ℝ) × List (List ℝ))
    (dec : List (List ℝ) → Option (List ℕ) → List (List ℝ) × List (List (List ℝ)))
    (clfNet : List (List ℝ) → List (List ℝ))
    (h1 : ys.dedup.length = 1) :
    (mkVModel genes ontology neuronnum n_batch (some ys) nSamples enc dec clfNet).classifier
        = none
    ∧ ∀ eps x batch,
        forward (mkVModel genes ontology neuronnum n_batch (some ys) nSamples enc dec clfNet)
            eps x batch
          = Except.error ("AttributeError: COntoVAE object has no attribute classifier") := by
  constructor
  · simp [mkVModel, n_classes_of, h1]
  · intro eps x batch
    simp [forward, mkVModel, n_classes_of, h1]

/-- Witness for C9: the constant label vector [5, 5] has one distinct
class; the model built from it has no classifier and its forward call
fails. -/
theorem single_class_forward_fails_witness :
    ([5, 5] : List ℕ).dedup.length = 1
    ∧ (mkVModel ["g"] ("o") 1 0 (some [5, 5]) 2 encEx decEx (fun a => a)).classifier = none
    ∧ forward (mkVModel ["g"] ("o") 1 0 (some [5, 5]) 2 encEx decEx (fun a => a))
          [[0]] [[1]] none
        = Except.error ("AttributeError: COntoVAE object has no attribute classifier") :=
  ⟨by decide,
   (single_class_forward_fails ["g"] ("o") 1 0 2 [5, 5] encEx decEx (fun a => a) (by decide)).1,
   (single_class_forward_fails ["g"] ("o") 1 0 2 [5, 5] encEx decEx (fun a => a) (by decide)).2
     [[0]] [[1]] none⟩

/-! ### C8: perturbation is pure input substitution -/

/-- C8: for a gene G in the gene list of the model and a value V,
with the sampler draws (eps1, eps2) held equal between the two runs,
perturbation with genes=[G], values=[V] and the genes output selector returns exactly
what the ordinary reconstruction path (_pass_data with the rec selector)
returns on the manually constructed input array with column G set to V;
and the stored dataset of the descriptor is returned unchanged (line 742
copies it), i.e. the perturbation is pure input substitution. -/
theorem perturbation_consistency (M : VModel) (eps1 eps2 : List (List ℝ))
    (ontobj : OntoObj) (G : String) (V : ℝ) (batch : Option (List ℕ))
    (hdesc : ontobj.description = M.ontology) (hG : G ∈ M.genes) :
    perturbation M eps1 eps2 ontobj [G] [V] batch ("genes") none none
      = (pass_data M eps1 eps2 (manual_input ontobj.data (M.genes.indexOf G) V)
          batch ("rec"), ontobj) := by
  unfold perturbation
  simp only [hdesc, ne_eq, not_true_eq_false, if_false, ite_not]
  have hsub : substitute_genes ontobj.data ([G].map (fun g => M.genes.indexOf g)) [V]
      = manual_input ontobj.data (M.genes.indexOf G) V := by
    simp [substitute_genes, set_col, manual_input]
  simp only [hsub]
  have h1 : (("genes" : String) = "terms") = False := by simp
  have h2 : (("genes" : String) = " genes") = False := by simp
  have h3 : (("genes" : String) = "genes") = True := by simp
  simp only [h1, h2, h3, if_false, if_true]
  cases h : pass_data M eps1 eps2 (manual_input ontobj.data (M.genes.indexOf G) V)
      batch ("rec") with
  | error e => simp
  | ok r => simp

/-- Witness for C8 on the concrete model Mplain with gene g0 set to 9. -/
theorem perturbation_consistency_witness :
    ontoEx.description = Mplain.ontology
    ∧ ("g0" : String) ∈ Mplain.genes
    ∧ perturbation Mplain [[0, 0]] [[0, 0]] ontoEx ["g0"] [9] none ("genes") none none
        = (pass_data Mplain [[0, 0]] [[0, 0]]
            (manual_input ontoEx.data (Mplain.genes.indexOf ("g0")) 9) none ("rec"), ontoEx) :=
  ⟨rfl, by decide,
   perturbation_consistency Mplain [[0, 0]] [[0, 0]] ontoEx ("g0") 9 none rfl (by decide)⟩

/-! ### C10: the leading-space genes guard and the terms subset -/

/-- C10: perturbation with the terms output selector forces rec_genes to
None (so any rec_genes argument is ignored), while the genes selector
does NOT force terms to None — line 736 compares output against the
string genes prefixed by one space — so with the genes selector and a
terms list supplied, the
terms-index column subset is applied to the reconstructed gene
matrix. -/
theorem perturbation_genes_terms_subset (M : VModel) (eps1 eps2 : List (List ℝ))
    (ontobj : OntoObj) (pGenes : List String) (vals : List ℝ)
    (batch : Option (List ℕ)) (ts : List String) (r : List (List ℝ))
    (hdesc : ontobj.description = M.ontology)
    (hrec : pass_data M eps1 eps2
        (substitute_genes ontobj.data (pGenes.map (fun g => M.genes.indexOf g)) vals)
        batch ("rec") = Except.ok r) :
    (perturbation M eps1 eps2 ontobj pGenes vals batch ("genes") (some ts) none).1
      = Except.ok (colSubset r (termIndices ontobj.annot ts))
    ∧ ∀ rg, perturbation M eps1 eps2 ontobj pGenes vals batch ("terms") (some ts) rg
        = perturbation M eps1 eps2 ontobj pGenes vals batch ("terms") (some ts) none := by
  constructor
  · unfold perturbation
    simp only [hdesc, ne_eq, not_true_eq_false, if_false, ite_not]
    have h1 : (("genes" : String) = "terms") = False := by simp
    have h2 : (("genes" : String) = " genes") = False := by simp
    have h3 : (("genes" : String) = "genes") = True := by simp
    simp only [h1, h2, h3, if_false, if_true, hrec]
  · intro rg
    unfold perturbation
    have h4 : (("terms" : String) = "terms") = True := by simp
    simp only [h4, if_true]

/-- Witness for C10 on the concrete model Mplain: perturbing g0 to 9
reconstructs [[9, 2]], and the terms filter [t1] (column index 1) is
applied to that gene matrix even though the output selector is genes. -/
theorem perturbation_genes_terms_subset_witness :
    pass_data Mplain [[0, 0]] [[0, 0]]
        (substitute_genes ontoEx.data ((["g0"] : List String).map
          (fun g => Mplain.genes.indexOf g)) [9]) none ("rec")
      = Except.ok [[9, 2]]
    ∧ ((perturbation Mplain [[0, 0]] [[0, 0]] ontoEx ["g0"] [9] none ("genes")
          (some ["t1"]) none).1
        = Except.ok (colSubset [[9, 2]] (termIndices ontoEx.annot ["t1"]))
      ∧ ∀ rg, perturbation Mplain [[0, 0]] [[0, 0]] ontoEx ["g0"] [9] none ("terms")
            (some ["t1"]) rg
          = perturbation Mplain [[0, 0]] [[0, 0]] ontoEx ["g0"] [9] none ("terms")
            (some ["t1"]) none) := by
  have h : pass_data Mplain [[0, 0]] [[0, 0]]
      (substitute_genes ontoEx.data ((["g0"] : List String).map
        (fun g => Mplain.genes.indexOf g)) [9]) none ("rec")
      = Except.ok [[9, 2]] := by
    have hne : (("rec" : String) = "act") = False := by simp
    norm_num [pass_data, get_embedding, forward, attach_batch, reparameterize, map2M,
      substitute_genes, set_col, Mplain, ontoEx, encEx, decEx, hne, List.replicate]
  exact ⟨h, perturbation_genes_terms_subset Mplain [[0, 0]] [[0, 0]] ontoEx ["g0"] [9]
    none ["t1"] [[9, 2]] rfl h⟩

/-! ### C3: pathway activity aggregation and its shape invariant -/

theorem hstack_row_length {α : Type} (wa wb : ℕ) :
    ∀ (A B : List (List α)), (∀ a ∈ A, a.length = wa) → (∀ b ∈ B, b.length = wb) →
      ∀ r ∈ hstack A B, r.length = wa + wb := by
  intro A
  induction A with
  | nil => intro B _ _ r hr; simp [hstack] at hr
  | cons a A ih =>
    intro B hA hB r hr
    cases B with
    | nil => simp [hstack] at hr
    | cons b B =>
      simp only [hstack, List.zipWith_cons_cons, List.mem_cons] at hr
      rcases hr with h | h
      · subst h
        rw [List.length_append, hA a (by simp), hB b (by simp)]
      · exact ih B (fun x hx => hA x (by simp [hx])) (fun x hx => hB x (by simp [hx])) r h

theorem foldl_hstack_shape {α : Type} (B : ℕ) :
    ∀ (ms : List (List (List α))) (ws : List ℕ) (acc : List (List α)) (wacc : ℕ),
      acc.length = B → (∀ r ∈ acc, r.length = wacc) →
      List.Forall₂ (fun m w => m.length = B ∧ ∀ r ∈ m, r.length = w) ms ws →
      (ms.foldl hstack acc).length = B
        ∧ ∀ r ∈ ms.foldl hstack acc, r.length = wacc + ws.sum := by
  intro ms
  induction ms with
  | nil =>
    intro ws acc wacc hlen hrow hf
    cases hf
    simpa using ⟨hlen, hrow⟩
  | cons m ms ih =>
    intro ws acc wacc hlen hrow hf
    cases hf with
    | cons hm hms =>
      rename_i w ws'
      have hacc1 : (hstack acc m).length = B := by
        simp [hstack, hlen, hm.1]
      have hacc2 : ∀ r ∈ hstack acc m, r.length = wacc + w :=
        hstack_row_length wacc w acc m hrow hm.2
      have := ih ws' (hstack acc m) (wacc + w) hacc1 hacc2 hms
      simpa [add_assoc] using this

theorem chunk_count (n T : ℕ) (hn : 0 < n) : (n * T + n - 1) / n = T := by
  rw [show n * T + n - 1 = (n - 1) + T * n by
    rw [Nat.mul_comm]; generalize T * n = a; omega]
  rw [Nat.add_mul_div_right _ _ hn, Nat.div_eq_of_lt (by omega)]
  omega

theorem chunkMeans_length (n T : ℕ) (hn : 0 < n) (l : List ℝ) (hl : l.length = n * T) :
    (chunkMeans n l).length = T := by
  simp [chunkMeans, splitChunks, hl, chunk_count n T hn]

theorem sum_map_mul (n : ℕ) : ∀ ds : List ℕ, (ds.map (fun d => n * d)).sum = n * ds.sum := by
  intro ds
  induction ds with
  | nil => simp
  | cons d ds ih => simp [ih, Nat.mul_add]

theorem activity_aggregate_shape (n r B : ℕ) (z : List (List ℝ))
    (caps : List (List (List ℝ))) (ds : List ℕ) (hn : 0 < n)
    (hB : z.length = B) (hzw : ∀ row ∈ z, row.length = n * r)
    (hcs : List.Forall₂ (fun m d => m.length = B ∧ ∀ row ∈ m, row.length = n * d) caps ds)
    (hne : caps ≠ []) :
    (activity_aggregate n z caps).length = B
    ∧ ∀ row ∈ activity_aggregate n z caps, row.length = r + ds.sum := by
  cases caps with
  | nil => exact absurd rfl hne
  | cons m ms =>
    cases hcs with
    | cons hm hms =>
      rename_i d ds'
      have hms' : List.Forall₂ (fun m w => m.length = B ∧ ∀ row ∈ m, row.length = w)
          ms (ds'.map (fun d => n * d)) := by
        rw [List.forall₂_map_right_iff]
        exact hms
      have hcat := foldl_hstack_shape B ms (ds'.map (fun d => n * d)) m (n * d) hm.1 hm.2 hms'
      have hcat1 : (catCols (m :: ms)).length = B := hcat.1
      have hcat2 : ∀ row ∈ catCols (m :: ms), row.length = n * (d + ds'.sum) := by
        intro row hrow
        have := hcat.2 row hrow
        rw [this, sum_map_mul, Nat.mul_add]
      have hh1 : (hstack z (catCols (m :: ms))).length = B := by
        simp [hstack, hB, hcat1]
      have hh2 : ∀ row ∈ hstack z (catCols (m :: ms)), row.length = n * ((d :: ds').sum + r) := by
        intro row hrow
        have := hstack_row_length (n * r) (n * (d + ds'.sum)) z (catCols (m :: ms))
          hzw hcat2 row hrow
        rw [this]
        simp [Nat.mul_add]
        ring
      constructor
      · simp [activity_aggregate, hh1]
      · intro row hrow
        simp only [activity_aggregate, List.mem_map] at hrow
        obtain ⟨row0, hrow0, hrow0eq⟩ := hrow
        subst hrow0eq
        rw [chunkMeans_length n ((d :: ds').sum + r) hn row0 (hh2 row0 hrow0)]
        simp [Nat.add_comm]

/-- C3: for every forward pass with labels and classifier present, the
pathway activity matrix is the rowwise chunk-average (chunk width
neuronnum) of the columnwise concatenation of the sampled z with every
captured decoder layer output in layer order; for any batch size B its
row count is B and its column count is r + sum(ds) — the latent term
count plus the term counts of all non-final decoder layers — a total
independent of B. -/
theorem forward_pathway_activity (M : VModel) (eps x : List (List ℝ))
    (batch : Option (List ℕ)) (lab : List ℕ) (clf : List (List ℝ) → List (List ℝ))
    (z : List (List ℝ)) (caps : List (List (List ℝ))) (r B : ℕ) (ds : List ℕ)
    (hlab : M.labels = some lab) (hclf : M.classifier = some clf)
    (hz : z = reparameterize (M.encoder (attach_batch M x batch)).1
                (M.encoder (attach_batch M x batch)).2 eps)
    (hcaps : caps = (M.decoder z batch).2)
    (hn : 0 < M.neuronnum) (hB : z.length = B)
    (hzw : ∀ row ∈ z, row.length = M.neuronnum * r)
    (hcs : List.Forall₂
      (fun m d => m.length = B ∧ ∀ row ∈ m, row.length = M.neuronnum * d) caps ds)
    (hne : caps ≠ []) :
    forward M eps x batch
      = Except.ok ((M.decoder z batch).1, (M.encoder (attach_batch M x batch)).1,
          (M.encoder (attach_batch M x batch)).2, caps,
          some (activity_aggregate M.neuronnum z caps,
                clf (activity_aggregate M.neuronnum z caps)))
    ∧ (activity_aggregate M.neuronnum z caps).length = B
    ∧ ∀ row ∈ activity_aggregate M.neuronnum z caps, row.length = r + ds.sum := by
  refine ⟨?_, (activity_aggregate_shape M.neuronnum r B z caps ds hn hB hzw hcs hne).1,
    (activity_aggregate_shape M.neuronnum r B z caps ds hn hB hzw hcs hne).2⟩
  subst hz
  subst hcaps
  simp [forward, hlab, hclf]

/-- Witness for C3 on the concrete model Mclf with a batch of size 2:
the latent z is [[1],[2]] (one root term at neuronnum 1), one captured
layer [[5,6],[7,8]] of two terms, so the activity matrix has 2 rows and
1 + 2 = 3 columns. -/
theorem forward_pathway_activity_witness :
    Mclf.labels = some [0, 1]
    ∧ ([[(1 : ℝ)], [(2 : ℝ)]] : List (List ℝ))
        = reparameterize (Mclf.encoder (attach_batch Mclf [[1], [2]] none)).1
            (Mclf.encoder (attach_batch Mclf [[1], [2]] none)).2 [[0], [0]]
    ∧ (forward Mclf [[0], [0]] [[1], [2]] none
        = Except.ok ((Mclf.decoder [[(1 : ℝ)], [(2 : ℝ)]] none).1,
            (Mclf.encoder (attach_batch Mclf [[1], [2]] none)).1,
            (Mclf.encoder (attach_batch Mclf [[1], [2]] none)).2,
            [[[5, 6], [7, 8]]],
            some (activity_aggregate Mclf.neuronnum [[(1 : ℝ)], [(2 : ℝ)]] [[[5, 6], [7, 8]]],
              (fun a => a) (activity_aggregate Mclf.neuronnum [[(1 : ℝ)], [(2 : ℝ)]]
                [[[5, 6], [7, 8]]])))
      ∧ (activity_aggregate Mclf.neuronnum [[(1 : ℝ)], [(2 : ℝ)]] [[[5, 6], [7, 8]]]).length = 2
      ∧ ∀ row ∈ activity_aggregate Mclf.neuronnum [[(1 : ℝ)], [(2 : ℝ)]] [[[5, 6], [7, 8]]],
          row.length = 1 + ([2] : List ℕ).sum) := by
  have hz : ([[(1 : ℝ)], [(2 : ℝ)]] : List (List ℝ))
      = reparameterize (Mclf.encoder (attach_batch Mclf [[1], [2]] none)).1
          (Mclf.encoder (attach_batch Mclf [[1], [2]] none)).2 [[0], [0]] := by
    norm_num [reparameterize, map2M, Mclf, encEx, attach_batch]
  refine ⟨rfl, hz, ?_⟩
  exact forward_pathway_activity Mclf [[0], [0]] [[1], [2]] none [0, 1] (fun a => a)
    [[(1 : ℝ)], [(2 : ℝ)]] [[[5, 6], [7, 8]]] 1 2 [2] rfl rfl hz rfl (by norm_num [Mclf])
    rfl (by norm_num [Mclf]) (by constructor <;> norm_num [Mclf]) (by simp)

end OntoVAE

end
